import Mathlib

/-!
Verification of the slang parser base (`ParserBase.h`) and the hierarchy
symbol elaborators (`HierarchySymbols.h`).

The parser's generic list recognizer `parseSeparatedList` and the recovery
primitive `skipBadTokens` are translated directly from the inline template
code in `ParserBase.h`.  Collaborators whose implementations live outside
the provided headers (the token window's `peek`/`consume`, `expect`,
`createExpectedToken`, the `prependTrivia` family, and the `fromSyntax`
elaborators of `HierarchySymbols.h`) are modelled from the specification,
each marked `Modelled from the spec:` in its doc comment.

The sliding token window is modelled as a cursor over a finite list of
tokens; the token source yields an `EndOfFile` token repeatedly once the
list is exhausted, as the external-interface contract states.  The two
`while (true)` loops of `parseSeparatedList` are written with an explicit
fuel argument (the C++ loops have no syntactic bound; their progress comes
from the item parser consuming input).  All conservation and invariant
theorems below are proved for every fuel value, so no fuel-sufficiency
argument is needed.
-/

namespace Slang

/-- Token kinds.  A small concrete universe standing for slang's
`TokenKind`; `EndOfFile` is the distinguished end marker tested by
`skipBadTokens`, the rest are representative kinds used to instantiate
the predicate parameters. -/
inductive TokenKind where
  | EndOfFile
  | LParen
  | RParen
  | Comma
  | Ident
  | Percent
  | Semi
  deriving DecidableEq, Repr

/-- Trivia kinds, from the data model: whitespace, comments, directives,
skipped tokens; `Unknown` is the kind of a default-constructed `Trivia()`,
the empty sentinel used by the single-slot accumulator. -/
inductive TriviaKind where
  | Unknown
  | Whitespace
  | LineComment
  | BlockComment
  | Directive
  | SkippedTokens
  deriving DecidableEq, Repr

mutual
/-- A token: kind, raw text, ordered leading trivia, missing flag and
source location (modelled as a byte offset). -/
inductive Token : Type where
  | mk : TokenKind → String → List Trivia → Bool → Nat → Token

/-- A trivium: kind, raw text slice, and (for `SkippedTokens`) the run of
tokens the parser discarded during recovery. -/
inductive Trivia : Type where
  | mk : TriviaKind → String → List Token → Trivia
end

def Token.kind : Token → TokenKind
  | .mk k _ _ _ _ => k

def Token.text : Token → String
  | .mk _ t _ _ _ => t

def Token.trivia : Token → List Trivia
  | .mk _ _ tr _ _ => tr

def Token.missing : Token → Bool
  | .mk _ _ _ m _ => m

def Token.location : Token → Nat
  | .mk _ _ _ _ l => l

def Trivia.kind : Trivia → TriviaKind
  | .mk k _ _ => k

def Trivia.tokens : Trivia → List Token
  | .mk _ _ ts => ts

/-- The default-constructed `Trivia()`: kind `Unknown`, no payload. -/
def Trivia.empty : Trivia := .mk .Unknown "" []

/-- The `Trivia(TriviaKind::SkippedTokens, tokens)` constructor used by
`skipBadTokens`. -/
def Trivia.skippedTokens (ts : List Token) : Trivia := .mk .SkippedTokens "" ts

/-- Attach one trivium in front of a token's existing leading trivia. -/
def Token.addTrivia : Token → Trivia → Token
  | .mk k tx trs m l, tr => .mk k tx (tr :: trs) m l

/-- Strip all leading trivia from a token (used when `expect` re-homes the
actual token's trivia onto the synthesized missing token). -/
def Token.withoutTrivia : Token → Token
  | .mk k tx _ m l => .mk k tx [] m l

mutual
/-- Raw source text of a token: its leading trivia's text followed by its
own text. -/
def Token.rawText : Token → String
  | .mk _ tx trs _ _ => triviaListText trs ++ tx

/-- Raw source text of a trivium.  A `SkippedTokens` trivium reproduces
the full text of the tokens it carries; the `Unknown` sentinel is empty;
all other trivia carry a raw text slice. -/
def Trivia.rawText : Trivia → String
  | .mk .SkippedTokens _ ts => tokenListText ts
  | .mk .Unknown _ _ => ""
  | .mk _ tx _ => tx

/-- Concatenated raw text of a list of trivia. -/
def triviaListText : List Trivia → String
  | [] => ""
  | tr :: rest => tr.rawText ++ triviaListText rest

/-- Concatenated raw text of a list of tokens. -/
def tokenListText : List Token → String
  | [] => ""
  | t :: rest => t.rawText ++ tokenListText rest
end

/-- Diagnostic codes: either the "expected X" code emitted by `expect`, or
an opaque numbered code passed through `skipBadTokens`. -/
inductive DiagCode where
  | expected (k : TokenKind)
  | numbered (n : Nat)
  deriving DecidableEq, Repr

/-- A diagnostic record: code plus source location, as appended by
`addError(code, location)`. -/
structure Diag where
  dcode : DiagCode
  loc : Nat
  deriving DecidableEq, Repr

/-- Parser state: the tokens not yet consumed by the window, and the
diagnostics sink (append-only). -/
structure ParserState where
  tokens : List Token
  diags : List Diag

/-- The `EndOfFile` token the token source yields once the input is
exhausted; repeated `peek` at EOF returns the same EOF token. -/
def eofToken : Token := .mk .EndOfFile "" [] false 0

/-- Modelled from the spec: the token window's `peek()` — return the
current token without consuming. -/
def peek (s : ParserState) : Token := s.tokens.headD eofToken

/-- Modelled from the spec: the token window's `consume()` — return and
advance past the current token.  At end of file the EOF token is returned
and the cursor does not move. -/
def consume (s : ParserState) : Token × ParserState :=
  match s.tokens with
  | [] => (eofToken, s)
  | t :: rest => (t, { s with tokens := rest })

/-- Modelled from the spec: `addError(code, location)` appends one record
to the diagnostics sink. -/
def addError (code : DiagCode) (loc : Nat) (s : ParserState) : ParserState :=
  { s with diags := s.diags ++ [⟨code, loc⟩] }

/-- Result of `skipBadTokens`. -/
inductive SkipAction where
  | Continue
  | Abort
  deriving DecidableEq, Repr

/-- The loop of `skipBadTokens` (ParserBase.h lines 149-161), recursing on
the remaining token list: while the current token is not expected, emit the
diagnostic once, abort on `EndOfFile` or an abort kind, otherwise consume
the token into the skipped accumulator.  Returns the action, the skipped
tokens, the remaining tokens and the diagnostics. -/
def skipLoop (IsExpected IsAbort : TokenKind → Bool) (code : DiagCode) :
    Bool → List Token → List Diag → List Token →
    SkipAction × List Token × List Token × List Diag
  | error, acc, diags, [] =>
    if IsExpected TokenKind.EndOfFile then (.Continue, acc, [], diags)
    else (.Abort, acc, [], if error then diags else diags ++ [⟨code, eofToken.location⟩])
  | error, acc, diags, t :: rest =>
    if IsExpected t.kind then (.Continue, acc, t :: rest, diags)
    else
      let diags1 := if error then diags else diags ++ [⟨code, t.location⟩]
      if t.kind = TokenKind.EndOfFile ∨ IsAbort t.kind then (.Abort, acc, t :: rest, diags1)
      else skipLoop IsExpected IsAbort code true (acc ++ [t]) diags1 rest

/-- Translation of skipBadTokens (ParserBase.h lines 142-169): run the skip loop from
a fresh token buffer, then assign the accumulator an empty trivium if
nothing was consumed, else a `SkippedTokens` trivium holding exactly the
consumed tokens. -/
def skipBadTokens (IsExpected IsAbort : TokenKind → Bool) (code : DiagCode)
    (s : ParserState) : SkipAction × Trivia × ParserState :=
  match skipLoop IsExpected IsAbort code false [] s.diags s.tokens with
  | (result, skipped, rest, diags) =>
    let sk := if skipped.isEmpty then Trivia.empty else Trivia.skippedTokens skipped
    (result, sk, { tokens := rest, diags := diags })

/-- Modelled from the spec: `createExpectedToken(actual, expected)` — the
missing-token factory used exclusively by `expect`.  It synthesizes a token
of the expected kind with empty text, flagged as missing, carrying the
leading trivia of the actual token, at the actual token's location. -/
def createExpectedToken (actual : Token) (expected : TokenKind) : Token :=
  .mk expected "" actual.trivia true actual.location

/-- Modelled from the spec: `expect(kind)` — consume a matching token; on
mismatch emit an "expected X" diagnostic at the current location and return
the missing token built by `createExpectedToken`.  The missing token takes
over the leading trivia of the actual token, which remains the current
token without it, consistent with the round-trip invariant holding on
error paths. -/
def expect (kind : TokenKind) (s : ParserState) : Token × ParserState :=
  let current := peek s
  if current.kind = kind then consume s
  else
    (createExpectedToken current kind,
      { tokens :=
          match s.tokens with
          | [] => []
          | t :: rest => t.withoutTrivia :: rest,
        diags := s.diags ++ [⟨DiagCode.expected kind, current.location⟩] })

/-- Modelled from the spec: `prependTrivia(Token, Trivia*)` — if the
trivium is not the empty sentinel, insert it before the token's existing
leading trivia and clear the slot; otherwise a no-op.  Returns the updated
token together with the new contents of the single-slot accumulator. -/
def prependTriviaTok (t : Token) (tr : Trivia) : Token × Trivia :=
  if tr.kind = TriviaKind.Unknown then (t, tr)
  else (t.addTrivia tr, Trivia.empty)

/-- A syntax-tree element of a separated list: either a token (a
separator) or a syntax node, the latter represented by its post-order
token sequence — the observable that the round-trip property reads. -/
inductive TokenOrSyntax where
  | tok (t : Token)
  | node (toks : List Token)

/-- Post-order token sequence of a list element. -/
def TokenOrSyntax.flatten : TokenOrSyntax → List Token
  | .tok t => [t]
  | .node ts => ts

/-- Raw source text of a list element: trivia-then-text over its token
sequence. -/
def TokenOrSyntax.rawText (x : TokenOrSyntax) : String :=
  tokenListText x.flatten

/-- Concatenated raw text of a buffer of list elements. -/
def tosListText : List TokenOrSyntax → String
  | [] => ""
  | x :: rest => x.rawText ++ tosListText rest

/-- Modelled from the spec: `prependTrivia(SyntaxNode*, Trivia*)` — attach
a pending trivium in front of the left-most token of the node and clear
the slot; a no-op (slot kept) when the trivium is empty or the node has no
tokens. -/
def prependTriviaTOS : TokenOrSyntax → Trivia → TokenOrSyntax × Trivia
  | .tok t, tr =>
    match prependTriviaTok t tr with
    | (t1, tr1) => (.tok t1, tr1)
  | .node ts, tr =>
    if tr.kind = TriviaKind.Unknown then (.node ts, tr)
    else
      match ts with
      | [] => (.node [], tr)
      | t :: rest => (.node (t.addTrivia tr :: rest), Trivia.empty)

/-- An item parser, the `TParserFunc` parameter of `parseSeparatedList`:
given the `isFirst` flag and the parser state, it returns the parsed node
(as its token sequence) and the new state. -/
def ItemParser : Type := Bool → ParserState → List Token × ParserState

/-- The inner separator loop of `parseSeparatedList` (ParserBase.h lines
116-129): while the current token is not an end token, either consume a
separator (via `expect`) and an item — each receiving any pending skipped
trivia — or skip bad tokens, breaking out on `Abort`.  Fuel bounds the
number of iterations of the unbounded C++ loop. -/
def sepInnerLoop (IsExpected IsEnd : TokenKind → Bool) (separatorKind : TokenKind)
    (code : DiagCode) (parseItem : ItemParser) :
    Nat → List TokenOrSyntax → Trivia → ParserState →
    List TokenOrSyntax × Trivia × ParserState
  | 0, buf, sk, s => (buf, sk, s)
  | fuel + 1, buf, sk, s =>
    if IsEnd (peek s).kind then (buf, sk, s)
    else if IsExpected (peek s).kind then
      let e1 := expect separatorKind s
      let p1 := prependTriviaTok e1.1 sk
      let it := parseItem false e1.2
      let p2 := prependTriviaTOS (.node it.1) p1.2
      sepInnerLoop IsExpected IsEnd separatorKind code parseItem fuel
        (buf ++ [.tok p1.1, p2.1]) p2.2 it.2
    else
      let r := skipBadTokens IsExpected IsEnd code s
      if r.1 = SkipAction.Abort then (buf, r.2.1, r.2.2)
      else sepInnerLoop IsExpected IsEnd separatorKind code parseItem fuel buf r.2.1 r.2.2

/-- The outer loop of `parseSeparatedList` (ParserBase.h lines 113-137):
if the current token can start an item, parse the first item (with pending
skipped trivia prepended) and run the separator loop, after which the end
has been found; otherwise skip bad tokens, breaking out on `Abort`. -/
def sepOuterLoop (IsExpected IsEnd : TokenKind → Bool) (separatorKind : TokenKind)
    (code : DiagCode) (parseItem : ItemParser) :
    Nat → List TokenOrSyntax → Trivia → ParserState →
    List TokenOrSyntax × Trivia × ParserState
  | 0, buf, sk, s => (buf, sk, s)
  | fuel + 1, buf, sk, s =>
    if IsExpected (peek s).kind then
      let it := parseItem true s
      let p1 := prependTriviaTOS (.node it.1) sk
      sepInnerLoop IsExpected IsEnd separatorKind code parseItem fuel
        (buf ++ [p1.1]) p1.2 it.2
    else
      let r := skipBadTokens IsExpected IsEnd code s
      if r.1 = SkipAction.Abort then (buf, r.2.1, r.2.2)
      else sepOuterLoop IsExpected IsEnd separatorKind code parseItem fuel buf r.2.1 r.2.2

/-- Translation of the parseSeparatedList buffer overload (ParserBase.h lines 101-140): an
empty skipped accumulator; if the current token is not an end token, run
the parse loop; finally consume the close token via `expect` with any
residual skipped trivia prepended to it.  The fuel instantiates the
unbounded loops; every theorem below holds for every fuel value. -/
def parseSeparatedListBuf (IsExpected IsEnd : TokenKind → Bool)
    (closeKind separatorKind : TokenKind) (code : DiagCode)
    (parseItem : ItemParser) (fuel : Nat) (s : ParserState) :
    List TokenOrSyntax × Token × ParserState :=
  let run :=
    if IsEnd (peek s).kind then ([], Trivia.empty, s)
    else sepOuterLoop IsExpected IsEnd separatorKind code parseItem fuel [] Trivia.empty s
  let e1 := expect closeKind run.2.2
  let closeToken := (prependTriviaTok e1.1 run.2.1).1
  (run.1, closeToken, e1.2)

/-- Translation of the parseSeparatedList bookend overload (ParserBase.h lines 84-99):
consume the open token via `expect`, then run the buffer overload. -/
def parseSeparatedListFull (IsExpected IsEnd : TokenKind → Bool)
    (openKind closeKind separatorKind : TokenKind) (code : DiagCode)
    (parseItem : ItemParser) (fuel : Nat) (s : ParserState) :
    Token × List TokenOrSyntax × Token × ParserState :=
  let e1 := expect openKind s
  let r := parseSeparatedListBuf IsExpected IsEnd closeKind separatorKind code parseItem fuel e1.2
  (e1.1, r.1, r.2.1, r.2.2)

/-- Raw text of the not-yet-consumed input of a parser state. -/
def stateText (s : ParserState) : String := tokenListText s.tokens

/-- The single-slot accumulator invariant maintained by the loops of
`parseSeparatedList`: the slot is empty, or the current token can start an
item (so the pending trivium is attached on the very next step, before any
further call to `skipBadTokens` could overwrite the slot). -/
def slotInv (IsExpected : TokenKind → Bool) (sk : Trivia) (s : ParserState) : Prop :=
  sk.kind = TriviaKind.Unknown ∨ IsExpected (peek s).kind = true

/-! Hierarchy symbol elaborators (`HierarchySymbols.h`).  The header only
declares the `fromSyntax` entry points; their bodies are modelled from the
specification below.  Constant evaluation of expressions is an external
collaborator, so guards, bounds and steps appear here as already-evaluated
constant values and functions on them. -/

/-- A statement tree, kept abstract: only its identity matters to the
claims about statement-bodied scopes. -/
inductive StatementSyntax where
  | leaf (n : Nat)
  | seq (a b : StatementSyntax)
  deriving DecidableEq, Repr

/-- A block statement: an optional label and the statement items. -/
structure BlockStatementSyntax where
  blockLabel : Option String
  items : StatementSyntax
  deriving DecidableEq, Repr

/-- A sequential block symbol: a named symbol together with its embedded
statement-bodied scope, which owns a single statement tree. -/
structure SequentialBlockSymbol where
  name : String
  location : Nat
  body : StatementSyntax
  deriving DecidableEq, Repr

/-- Modelled from the spec: `SequentialBlockSymbol::fromSyntax`
(HierarchySymbols.h line 101; body not in the provided sources) — the
symbol's name is taken from the block statement's optional label (empty
when absent) and the statement tree is stored on the embedded
statement-bodied scope. -/
def SequentialBlockSymbol.fromSyntax (stx : BlockStatementSyntax) (loc : Nat) :
    SequentialBlockSymbol :=
  { name := stx.blockLabel.getD "", location := loc, body := stx.items }

/-- A generate block symbol: its name (from its label, or anonymous) and
its members, kept abstract as numbered entities. -/
structure GenerateBlockSymbol where
  name : String
  members : List Nat
  deriving DecidableEq, Repr

/-- Modelled from the spec: `GenerateBlockSymbol::fromSyntax` for an
if-generate node (HierarchySymbols.h lines 136-137; body not in the
provided sources) — the guard expression has been evaluated as a constant
by the external binder; return the then-branch block when the guard is
true (nonzero), the else-branch block when false and present, otherwise a
null result. -/
def ifGenerateFromSyntax (guardValue : Int) (thenBlock : GenerateBlockSymbol)
    (elseBlock : Option GenerateBlockSymbol) : Option GenerateBlockSymbol :=
  if guardValue ≠ 0 then some thenBlock else elseBlock

/-- Adding the result of an if-generate elaboration to the parent scope's
member list: a null result adds no member. -/
def addIfGenerateMember (scopeMembers : List GenerateBlockSymbol)
    (r : Option GenerateBlockSymbol) : List GenerateBlockSymbol :=
  match r with
  | none => scopeMembers
  | some b => scopeMembers ++ [b]

/-- One child block of a generate-block array: it exposes an implicit
parameter symbol named after the loop's genvar, bound to that iteration's
constant value. -/
structure GenerateBlockChild where
  paramName : String
  paramValue : Int
  deriving DecidableEq, Repr

/-- The implementation-defined iteration cap of loop-generate elaboration;
the spec requires it to be at least 2^16. -/
def maxGenerateSteps : Nat := 131072

/-- Modelled from the spec: the iteration loop of
`GenerateBlockArraySymbol::fromSyntax` — while the (constant-evaluated)
condition holds, create one child per iteration exposing the genvar bound
to the current value, then apply the step; `none` (a fatal elaboration
error that aborts only this subtree) when the remaining iteration budget
is exhausted.  The structural recursion on the budget makes elaboration of
every loop-generate construct terminate. -/
def generateLoopRun (cond : Int → Bool) (step : Int → Int) (genvar : String) :
    Nat → Int → Option (List GenerateBlockChild)
  | 0, _ => none
  | budget + 1, i =>
    if cond i then
      match generateLoopRun cond step genvar budget (step i) with
      | none => none
      | some rest => some (⟨genvar, i⟩ :: rest)
    else some []

/-- Modelled from the spec: `GenerateBlockArraySymbol::fromSyntax`
(HierarchySymbols.h lines 152-154; body not in the provided sources) —
evaluate initial, condition and step as constants (external binder) and
iterate from the initial value under the implementation-defined cap. -/
def generateBlockArrayFromSyntax (genvar : String) (initial : Int)
    (cond : Int → Bool) (step : Int → Int) : Option (List GenerateBlockChild) :=
  generateLoopRun cond step genvar maxGenerateSteps initial

/-- The value of the genvar at iteration `k`: the step function applied
`k` times to the initial value. -/
def genvarOrbit (step : Int → Int) (initial : Int) (k : Nat) : Int :=
  step^[k] initial

/-! Concrete fixtures used to exercise the definitions on small inputs:
an item parser that consumes a single token, list predicates in the style
of the grammar's `isPossibleExpressionOrComma` helpers, and token streams
with and without bad tokens. -/

/-- An item parser that consumes exactly one token and returns it as a
one-token node. -/
def oneTokenItem : ItemParser := fun _ s => ((consume s).1 :: [], (consume s).2)

/-- A leading-whitespace trivium used by the fixture tokens. -/
def wsTrivia : Trivia := .mk .Whitespace " " []

/-- A fixture token with one space of leading trivia. -/
def mkTok (k : TokenKind) (tx : String) (l : Nat) : Token := .mk k tx [wsTrivia] false l

/-- Fixture predicate: a token that can start a list element (identifier)
or continue the list (comma), as the grammar's predicates do. -/
def fixIsExpected : TokenKind → Bool := fun k => k = .Ident || k = .Comma

/-- Fixture predicate: a token that ends the list — the closing
parenthesis or a hard stop (semicolon). -/
def fixIsEnd : TokenKind → Bool := fun k => k = .RParen || k = .Semi

/-- Fixture input with a bad token run: `( a , % , b )` followed by end
of file. -/
def badTokens : List Token :=
  [mkTok .LParen "(" 0, mkTok .Ident "a" 2, mkTok .Comma "," 4, mkTok .Percent "%" 6,
    mkTok .Comma "," 8, mkTok .Ident "b" 10, mkTok .RParen ")" 12, mkTok .EndOfFile "" 14]

/-- Parser state over the bad-token fixture input. -/
def badState : ParserState := ⟨badTokens, []⟩

/-- Fixture input `( ; )`: the token after the open parenthesis is a hard
stop satisfying `IsEnd` but is not the close parenthesis. -/
def hardStopTokens : List Token :=
  [mkTok .LParen "(" 0, mkTok .Semi ";" 2, mkTok .EndOfFile "" 4]

/-- Parser state over the hard-stop fixture input. -/
def hardStopState : ParserState := ⟨hardStopTokens, []⟩

/-- Fixture input `( )`: an empty list. -/
def emptyListTokens : List Token :=
  [mkTok .LParen "(" 0, mkTok .RParen ")" 2, mkTok .EndOfFile "" 4]

/-- Parser state over the empty-list fixture input. -/
def emptyListState : ParserState := ⟨emptyListTokens, []⟩

/-- Fixture state whose current token is a bad token run `% %` ending at
an identifier. -/
def skipFixState : ParserState :=
  ⟨[mkTok .Percent "%" 0, mkTok .Percent "%" 2, mkTok .Ident "x" 4,
     mkTok .EndOfFile "" 6], []⟩

/-- Fixture predicate satisfied by `Semi`, used both as expected and as
abort kind to exercise the order of the two tests in `skipBadTokens`. -/
def fixIsSemi : TokenKind → Bool := fun k => k = .Semi

/-- Fixture state whose current token is a semicolon. -/
def semiState : ParserState := ⟨[mkTok .Semi ";" 0, mkTok .EndOfFile "" 2], []⟩

/-- Fixture loop condition `i < 3` for the loop-generate scenario. -/
def c6Cond : Int → Bool := fun i => decide (i < 3)

/-- Fixture loop step `i++` for the loop-generate scenario. -/
def c6Step : Int → Int := fun i => i + 1

/-! Helper lemmas: raw-text algebra. -/

theorem tokenListText_nil : tokenListText [] = "" := rfl

theorem tokenListText_cons (t : Token) (ts : List Token) :
    tokenListText (t :: ts) = t.rawText ++ tokenListText ts := rfl

theorem tokenListText_append (a b : List Token) :
    tokenListText (a ++ b) = tokenListText a ++ tokenListText b := by
  induction a with
  | nil => simp [tokenListText]
  | cons t rest ih =>
    simp only [List.cons_append, tokenListText_cons, ih, String.append_assoc]

theorem tosListText_nil : tosListText [] = "" := rfl

theorem tosListText_cons (x : TokenOrSyntax) (xs : List TokenOrSyntax) :
    tosListText (x :: xs) = x.rawText ++ tosListText xs := rfl

theorem tosListText_append (a b : List TokenOrSyntax) :
    tosListText (a ++ b) = tosListText a ++ tosListText b := by
  induction a with
  | nil => simp [tosListText]
  | cons x rest ih =>
    simp only [List.cons_append, tosListText_cons, ih, String.append_assoc]

theorem Token.rawText_mk (k : TokenKind) (tx : String) (trs : List Trivia)
    (m : Bool) (l : Nat) : (Token.mk k tx trs m l).rawText = triviaListText trs ++ tx := by
  rfl

theorem Token.rawText_addTrivia (t : Token) (tr : Trivia) :
    (t.addTrivia tr).rawText = tr.rawText ++ t.rawText := by
  cases t with
  | mk k tx trs m l =>
    show triviaListText (tr :: trs) ++ tx = tr.rawText ++ (triviaListText trs ++ tx)
    show tr.rawText ++ triviaListText trs ++ tx = tr.rawText ++ (triviaListText trs ++ tx)
    rw [String.append_assoc]

theorem Trivia.rawText_empty : Trivia.empty.rawText = "" := rfl

theorem Trivia.rawText_skippedTokens (ts : List Token) :
    (Trivia.skippedTokens ts).rawText = tokenListText ts := rfl

theorem Trivia.rawText_of_unknown (tr : Trivia) (h : tr.kind = TriviaKind.Unknown) :
    tr.rawText = "" := by
  cases tr with
  | mk k tx ts =>
    cases k <;> first | rfl | exact absurd h (by simp [Trivia.kind])

theorem Token.rawText_withoutTrivia (t : Token) :
    t.rawText = triviaListText t.trivia ++ t.withoutTrivia.rawText := by
  cases t with
  | mk k tx trs m l =>
    show triviaListText trs ++ tx = triviaListText trs ++ (triviaListText [] ++ tx)
    rfl

/-! Helper lemmas: the token window. -/

theorem peek_mk (ts : List Token) (ds : List Diag) :
    peek ⟨ts, ds⟩ = ts.headD eofToken := rfl

theorem consume_fst (s : ParserState) : (consume s).1 = peek s := by
  cases s with
  | mk ts ds => cases ts <;> rfl

theorem consume_diags (s : ParserState) : (consume s).2.diags = s.diags := by
  cases s with
  | mk ts ds => cases ts <;> rfl

theorem consume_conserve (s : ParserState) :
    (consume s).1.rawText ++ stateText (consume s).2 = stateText s := by
  cases s with
  | mk ts ds =>
    cases ts with
    | nil => rfl
    | cons t rest => rfl

theorem expect_conserve (k : TokenKind) (s : ParserState) :
    (expect k s).1.rawText ++ stateText (expect k s).2 = stateText s := by
  by_cases h : (peek s).kind = k
  · simp only [expect, h, if_pos]
    exact consume_conserve s
  · simp only [expect, h, if_neg, if_false]
    cases s with
    | mk ts ds =>
      cases ts with
      | nil => rfl
      | cons t rest =>
        show (createExpectedToken t k).rawText ++
          tokenListText (t.withoutTrivia :: rest) = tokenListText (t :: rest)
        cases t with
        | mk tk tx trs m l =>
          show (triviaListText trs ++ "") ++ ((triviaListText [] ++ tx) ++ tokenListText rest)
            = (triviaListText trs ++ tx) ++ tokenListText rest
          simp only [triviaListText, String.append_assoc, String.append_empty,
            String.empty_append]

theorem expect_diags (k : TokenKind) (s : ParserState) :
    (expect k s).2.diags =
      if (peek s).kind = k then s.diags
      else s.diags ++ [⟨DiagCode.expected k, (peek s).location⟩] := by
  by_cases h : (peek s).kind = k
  · simp only [expect, h, if_pos, consume_diags]
  · simp only [expect, h, if_neg, if_false]

/-! Helper lemmas: the trivia-prepend operations. -/

theorem prependTriviaTok_of_unknown (t : Token) (tr : Trivia)
    (h : tr.kind = TriviaKind.Unknown) : prependTriviaTok t tr = (t, tr) := by
  simp [prependTriviaTok, h]

theorem prependTriviaTok_of_ne (t : Token) (tr : Trivia)
    (h : tr.kind ≠ TriviaKind.Unknown) :
    prependTriviaTok t tr = (t.addTrivia tr, Trivia.empty) := by
  simp [prependTriviaTok, h]

theorem prependTriviaTok_slot (t : Token) (tr : Trivia) :
    (prependTriviaTok t tr).2.kind = TriviaKind.Unknown := by
  by_cases h : tr.kind = TriviaKind.Unknown
  · rw [prependTriviaTok_of_unknown t tr h]; exact h
  · rw [prependTriviaTok_of_ne t tr h]; rfl

theorem prependTriviaTok_fst_rawText (t : Token) (tr : Trivia) :
    (prependTriviaTok t tr).1.rawText = tr.rawText ++ t.rawText := by
  by_cases h : tr.kind = TriviaKind.Unknown
  · rw [prependTriviaTok_of_unknown t tr h, Trivia.rawText_of_unknown tr h,
      String.empty_append]
  · rw [prependTriviaTok_of_ne t tr h]
    exact Token.rawText_addTrivia t tr

theorem prependTriviaTok_conserve (t : Token) (tr : Trivia) :
    (prependTriviaTok t tr).1.rawText ++ (prependTriviaTok t tr).2.rawText =
      tr.rawText ++ t.rawText := by
  rw [prependTriviaTok_fst_rawText,
    Trivia.rawText_of_unknown _ (prependTriviaTok_slot t tr), String.append_empty]

theorem prependTriviaTOS_of_unknown (x : TokenOrSyntax) (tr : Trivia)
    (h : tr.kind = TriviaKind.Unknown) : prependTriviaTOS x tr = (x, tr) := by
  cases x with
  | tok t => simp [prependTriviaTOS, prependTriviaTok_of_unknown t tr h]
  | node ts => simp [prependTriviaTOS, h]

theorem prependTriviaTOS_slot_of_ne (ts : List Token) (tr : Trivia)
    (h : ts ≠ []) : (prependTriviaTOS (.node ts) tr).2.kind = TriviaKind.Unknown := by
  by_cases hu : tr.kind = TriviaKind.Unknown
  · rw [prependTriviaTOS_of_unknown _ tr hu]; exact hu
  · cases ts with
    | nil => exact absurd rfl h
    | cons t rest => simp [prependTriviaTOS, hu]; rfl

theorem prependTriviaTOS_conserve (x : TokenOrSyntax) (tr : Trivia) :
    (prependTriviaTOS x tr).1.rawText ++ (prependTriviaTOS x tr).2.rawText =
      tr.rawText ++ x.rawText := by
  by_cases hu : tr.kind = TriviaKind.Unknown
  · rw [prependTriviaTOS_of_unknown x tr hu, Trivia.rawText_of_unknown tr hu,
      String.empty_append, String.append_empty]
  · cases x with
    | tok t =>
      have h1 : prependTriviaTOS (.tok t) tr =
          (.tok (prependTriviaTok t tr).1, (prependTriviaTok t tr).2) := rfl
      rw [h1]
      show tokenListText [(prependTriviaTok t tr).1] ++ (prependTriviaTok t tr).2.rawText =
        tr.rawText ++ tokenListText [t]
      rw [tokenListText_cons, tokenListText_nil, String.append_empty,
        tokenListText_cons, tokenListText_nil, String.append_empty,
        prependTriviaTok_conserve]
    | node ts =>
      cases ts with
      | nil =>
        simp only [prependTriviaTOS, hu, if_neg, if_false]
        show tokenListText [] ++ tr.rawText = tr.rawText ++ tokenListText []
        rw [tokenListText_nil, String.append_empty, String.empty_append]
      | cons t rest =>
        simp only [prependTriviaTOS, hu, if_neg, if_false]
        show tokenListText (t.addTrivia tr :: rest) ++ Trivia.empty.rawText =
          tr.rawText ++ tokenListText (t :: rest)
        rw [Trivia.rawText_empty, String.append_empty, tokenListText_cons,
          tokenListText_cons, Token.rawText_addTrivia, String.append_assoc]

/-! Helper lemmas: `skipLoop` and `skipBadTokens`. -/

theorem skipLoop_diags_of_error (IsExpected IsAbort : TokenKind → Bool) (code : DiagCode) :
    ∀ (toks : List Token) (acc : List Token) (diags : List Diag),
      (skipLoop IsExpected IsAbort code true acc diags toks).2.2.2 = diags := by
  intro toks
  induction toks with
  | nil =>
    intro acc diags
    by_cases h : IsExpected TokenKind.EndOfFile <;> simp [skipLoop, h]
  | cons t rest ih =>
    intro acc diags
    by_cases h : IsExpected t.kind
    · simp [skipLoop, h]
    · by_cases h2 : t.kind = TokenKind.EndOfFile ∨ IsAbort t.kind
      · simp [skipLoop, h, h2]
      · simp only [skipLoop, h, if_false, h2, Bool.false_eq_true, if_true, if_neg]
        exact ih _ _

theorem skipLoop_split (IsExpected IsAbort : TokenKind → Bool) (code : DiagCode) :
    ∀ (toks : List Token) (e : Bool) (acc : List Token) (diags : List Diag),
      ∃ mid,
        (skipLoop IsExpected IsAbort code e acc diags toks).2.1 = acc ++ mid ∧
        toks = mid ++ (skipLoop IsExpected IsAbort code e acc diags toks).2.2.1 ∧
        (∀ t ∈ mid, IsExpected t.kind = false ∧ t.kind ≠ TokenKind.EndOfFile ∧
          IsAbort t.kind = false) := by
  intro toks
  induction toks with
  | nil =>
    intro e acc diags
    refine ⟨[], ?_, ?_, ?_⟩ <;>
      by_cases h : IsExpected TokenKind.EndOfFile <;> simp [skipLoop, h]
  | cons t rest ih =>
    intro e acc diags
    by_cases h : IsExpected t.kind
    · exact ⟨[], by simp [skipLoop, h], by simp [skipLoop, h], by simp⟩
    · by_cases h2 : t.kind = TokenKind.EndOfFile ∨ IsAbort t.kind
      · exact ⟨[], by simp [skipLoop, h, h2], by simp [skipLoop, h, h2], by simp⟩
      · have hstep :
            skipLoop IsExpected IsAbort code e acc diags (t :: rest) =
            skipLoop IsExpected IsAbort code true (acc ++ [t])
              (if e then diags else diags ++ [⟨code, t.location⟩]) rest := by
          simp [skipLoop, h, h2]
        obtain ⟨mid, hacc, hrest, hmem⟩ := ih true (acc ++ [t])
          (if e then diags else diags ++ [⟨code, t.location⟩])
        refine ⟨t :: mid, ?_, ?_, ?_⟩
        · rw [hstep, hacc]; simp
        · rw [hstep, List.cons_append]
          exact congrArg (t :: ·) hrest
        · intro u hu
          rcases List.mem_cons.mp hu with rfl | hu
          · push_neg at h2
            refine ⟨?_, h2.1, ?_⟩
            · simpa using h
            · simpa using h2.2
          · exact hmem u hu

theorem skipLoop_nil_pos (IsExpected IsAbort : TokenKind → Bool) (code : DiagCode)
    (e : Bool) (acc : List Token) (diags : List Diag)
    (h : IsExpected TokenKind.EndOfFile = true) :
    skipLoop IsExpected IsAbort code e acc diags [] =
      (SkipAction.Continue, acc, [], diags) := by
  simp [skipLoop, h]

theorem skipLoop_nil_neg (IsExpected IsAbort : TokenKind → Bool) (code : DiagCode)
    (e : Bool) (acc : List Token) (diags : List Diag)
    (h : IsExpected TokenKind.EndOfFile = false) :
    skipLoop IsExpected IsAbort code e acc diags [] =
      (SkipAction.Abort, acc, [],
        if e then diags else diags ++ [⟨code, eofToken.location⟩]) := by
  simp [skipLoop, h]

theorem skipLoop_cons_expected (IsExpected IsAbort : TokenKind → Bool) (code : DiagCode)
    (e : Bool) (acc : List Token) (diags : List Diag) (t : Token) (rest : List Token)
    (h : IsExpected t.kind = true) :
    skipLoop IsExpected IsAbort code e acc diags (t :: rest) =
      (SkipAction.Continue, acc, t :: rest, diags) := by
  simp [skipLoop, h]

theorem skipLoop_cons_abort (IsExpected IsAbort : TokenKind → Bool) (code : DiagCode)
    (e : Bool) (acc : List Token) (diags : List Diag) (t : Token) (rest : List Token)
    (h : IsExpected t.kind = false)
    (h2 : t.kind = TokenKind.EndOfFile ∨ IsAbort t.kind = true) :
    skipLoop IsExpected IsAbort code e acc diags (t :: rest) =
      (SkipAction.Abort, acc, t :: rest,
        if e then diags else diags ++ [⟨code, t.location⟩]) := by
  simp [skipLoop, h, h2]

theorem skipLoop_cons_skip (IsExpected IsAbort : TokenKind → Bool) (code : DiagCode)
    (e : Bool) (acc : List Token) (diags : List Diag) (t : Token) (rest : List Token)
    (h : IsExpected t.kind = false)
    (h2 : ¬(t.kind = TokenKind.EndOfFile ∨ IsAbort t.kind = true)) :
    skipLoop IsExpected IsAbort code e acc diags (t :: rest) =
      skipLoop IsExpected IsAbort code true (acc ++ [t])
        (if e then diags else diags ++ [⟨code, t.location⟩]) rest := by
  simp [skipLoop, h, h2]

theorem skipLoop_diags_of_unexpected (IsExpected IsAbort : TokenKind → Bool)
    (code : DiagCode) :
    ∀ (toks : List Token) (acc : List Token) (diags : List Diag),
      IsExpected (toks.headD eofToken).kind = false →
      (skipLoop IsExpected IsAbort code false acc diags toks).2.2.2 =
        diags ++ [⟨code, (toks.headD eofToken).location⟩] := by
  intro toks
  cases toks with
  | nil =>
    intro acc diags h
    rw [skipLoop_nil_neg IsExpected IsAbort code false acc diags h]
    rfl
  | cons t rest =>
    intro acc diags h
    by_cases h2 : t.kind = TokenKind.EndOfFile ∨ IsAbort t.kind = true
    · rw [skipLoop_cons_abort IsExpected IsAbort code false acc diags t rest h h2]
      rfl
    · rw [skipLoop_cons_skip IsExpected IsAbort code false acc diags t rest h h2,
        skipLoop_diags_of_error]
      rfl

theorem skipLoop_continue (IsExpected IsAbort : TokenKind → Bool) (code : DiagCode) :
    ∀ (toks : List Token) (e : Bool) (acc : List Token) (diags : List Diag),
      (skipLoop IsExpected IsAbort code e acc diags toks).1 = SkipAction.Continue →
      IsExpected ((skipLoop IsExpected IsAbort code e acc diags toks).2.2.1.headD
        eofToken).kind = true := by
  intro toks
  induction toks with
  | nil =>
    intro e acc diags h
    by_cases hx : IsExpected TokenKind.EndOfFile = true
    · rw [skipLoop_nil_pos IsExpected IsAbort code e acc diags hx]
      exact hx
    · have hx2 : IsExpected TokenKind.EndOfFile = false := by simpa using hx
      rw [skipLoop_nil_neg IsExpected IsAbort code e acc diags hx2] at h
      simp at h
  | cons t rest ih =>
    intro e acc diags h
    by_cases hx : IsExpected t.kind = true
    · rw [skipLoop_cons_expected IsExpected IsAbort code e acc diags t rest hx]
      exact hx
    · have hx2 : IsExpected t.kind = false := by simpa using hx
      by_cases h2 : t.kind = TokenKind.EndOfFile ∨ IsAbort t.kind = true
      · rw [skipLoop_cons_abort IsExpected IsAbort code e acc diags t rest hx2 h2] at h
        simp at h
      · rw [skipLoop_cons_skip IsExpected IsAbort code e acc diags t rest hx2 h2] at h ⊢
        exact ih _ _ _ h

theorem skipLoop_abort (IsExpected IsAbort : TokenKind → Bool) (code : DiagCode) :
    ∀ (toks : List Token) (e : Bool) (acc : List Token) (diags : List Diag),
      (skipLoop IsExpected IsAbort code e acc diags toks).1 = SkipAction.Abort →
      IsExpected ((skipLoop IsExpected IsAbort code e acc diags toks).2.2.1.headD
          eofToken).kind = false ∧
        (((skipLoop IsExpected IsAbort code e acc diags toks).2.2.1.headD
            eofToken).kind = TokenKind.EndOfFile ∨
          IsAbort ((skipLoop IsExpected IsAbort code e acc diags toks).2.2.1.headD
            eofToken).kind = true) := by
  intro toks
  induction toks with
  | nil =>
    intro e acc diags h
    by_cases hx : IsExpected TokenKind.EndOfFile = true
    · rw [skipLoop_nil_pos IsExpected IsAbort code e acc diags hx] at h
      simp at h
    · have hx2 : IsExpected TokenKind.EndOfFile = false := by simpa using hx
      rw [skipLoop_nil_neg IsExpected IsAbort code e acc diags hx2]
      exact ⟨hx2, Or.inl rfl⟩
  | cons t rest ih =>
    intro e acc diags h
    by_cases hx : IsExpected t.kind = true
    · rw [skipLoop_cons_expected IsExpected IsAbort code e acc diags t rest hx] at h
      simp at h
    · have hx2 : IsExpected t.kind = false := by simpa using hx
      by_cases h2 : t.kind = TokenKind.EndOfFile ∨ IsAbort t.kind = true
      · rw [skipLoop_cons_abort IsExpected IsAbort code e acc diags t rest hx2 h2]
        exact ⟨hx2, h2⟩
      · rw [skipLoop_cons_skip IsExpected IsAbort code e acc diags t rest hx2 h2] at h ⊢
        exact ih _ _ _ h

theorem skipLoop_of_expected (IsExpected IsAbort : TokenKind → Bool) (code : DiagCode)
    (toks : List Token) (e : Bool) (acc : List Token) (diags : List Diag)
    (h : IsExpected (toks.headD eofToken).kind = true) :
    skipLoop IsExpected IsAbort code e acc diags toks =
      (SkipAction.Continue, acc, toks, diags) := by
  cases toks with
  | nil => exact skipLoop_nil_pos IsExpected IsAbort code e acc diags h
  | cons t rest => exact skipLoop_cons_expected IsExpected IsAbort code e acc diags t rest h

theorem skipBadTokens_split (IsExpected IsAbort : TokenKind → Bool) (code : DiagCode)
    (s : ParserState) :
    ∃ mid,
      s.tokens = mid ++ (skipBadTokens IsExpected IsAbort code s).2.2.tokens ∧
      (skipBadTokens IsExpected IsAbort code s).2.1 =
        (if mid.isEmpty then Trivia.empty else Trivia.skippedTokens mid) ∧
      (∀ t ∈ mid, IsExpected t.kind = false ∧ t.kind ≠ TokenKind.EndOfFile ∧
        IsAbort t.kind = false) := by
  obtain ⟨mid, hacc, hrest, hmem⟩ :=
    skipLoop_split IsExpected IsAbort code s.tokens false [] s.diags
  refine ⟨mid, ?_, ?_, hmem⟩
  · simpa [skipBadTokens] using hrest
  · simp only [skipBadTokens]
    rw [hacc]
    simp

theorem skipBadTokens_conserve (IsExpected IsAbort : TokenKind → Bool) (code : DiagCode)
    (s : ParserState) :
    (skipBadTokens IsExpected IsAbort code s).2.1.rawText ++
      stateText (skipBadTokens IsExpected IsAbort code s).2.2 = stateText s := by
  obtain ⟨mid, hsplit, hsk, _⟩ := skipBadTokens_split IsExpected IsAbort code s
  have hraw : (skipBadTokens IsExpected IsAbort code s).2.1.rawText = tokenListText mid := by
    rw [hsk]
    by_cases hm : mid.isEmpty
    · have : mid = [] := by simpa [List.isEmpty_iff] using hm
      simp [this, Trivia.rawText_empty, tokenListText_nil]
    · simp [hm, Trivia.rawText_skippedTokens]
  rw [hraw, stateText, stateText, hsplit, tokenListText_append]

theorem skipBadTokens_diags_of_unexpected (IsExpected IsAbort : TokenKind → Bool)
    (code : DiagCode) (s : ParserState)
    (h : IsExpected (peek s).kind = false) :
    (skipBadTokens IsExpected IsAbort code s).2.2.diags =
      s.diags ++ [⟨code, (peek s).location⟩] := by
  simp only [skipBadTokens]
  exact skipLoop_diags_of_unexpected IsExpected IsAbort code s.tokens [] s.diags h

theorem skipBadTokens_continue (IsExpected IsAbort : TokenKind → Bool) (code : DiagCode)
    (s : ParserState)
    (h : (skipBadTokens IsExpected IsAbort code s).1 = SkipAction.Continue) :
    IsExpected (peek (skipBadTokens IsExpected IsAbort code s).2.2).kind = true := by
  have := skipLoop_continue IsExpected IsAbort code s.tokens false [] s.diags
  simp only [skipBadTokens] at h ⊢
  exact this h

theorem skipBadTokens_abort (IsExpected IsAbort : TokenKind → Bool) (code : DiagCode)
    (s : ParserState)
    (h : (skipBadTokens IsExpected IsAbort code s).1 = SkipAction.Abort) :
    IsExpected (peek (skipBadTokens IsExpected IsAbort code s).2.2).kind = false ∧
      ((peek (skipBadTokens IsExpected IsAbort code s).2.2).kind = TokenKind.EndOfFile ∨
        IsAbort (peek (skipBadTokens IsExpected IsAbort code s).2.2).kind = true) := by
  have := skipLoop_abort IsExpected IsAbort code s.tokens false [] s.diags
  simp only [skipBadTokens] at h ⊢
  exact this h

theorem skipBadTokens_of_expected (IsExpected IsAbort : TokenKind → Bool) (code : DiagCode)
    (s : ParserState) (h : IsExpected (peek s).kind = true) :
    skipBadTokens IsExpected IsAbort code s = (SkipAction.Continue, Trivia.empty, s) := by
  simp only [skipBadTokens,
    skipLoop_of_expected IsExpected IsAbort code s.tokens false [] s.diags h]
  rfl

/-! Helper lemmas: small raw-text conversions. -/

theorem tosListText_single (x : TokenOrSyntax) : tosListText [x] = x.rawText := by
  rw [tosListText_cons, tosListText_nil, String.append_empty]

theorem tosListText_pair (x y : TokenOrSyntax) :
    tosListText [x, y] = x.rawText ++ y.rawText := by
  rw [tosListText_cons, tosListText_single]

theorem TokenOrSyntax.rawText_tok (t : Token) :
    (TokenOrSyntax.tok t).rawText = t.rawText := by
  show tokenListText [t] = t.rawText
  rw [tokenListText_cons, tokenListText_nil, String.append_empty]

theorem TokenOrSyntax.rawText_node (ts : List Token) :
    (TokenOrSyntax.node ts).rawText = tokenListText ts := rfl

/-! Helper lemmas: branch equations of the `parseSeparatedList` loops. -/

theorem sepInnerLoop_end (IsExpected IsEnd : TokenKind → Bool) (separatorKind : TokenKind)
    (code : DiagCode) (parseItem : ItemParser) (fuel : Nat) (buf : List TokenOrSyntax)
    (sk : Trivia) (s : ParserState) (h : IsEnd (peek s).kind = true) :
    sepInnerLoop IsExpected IsEnd separatorKind code parseItem (fuel + 1) buf sk s =
      (buf, sk, s) := by
  simp [sepInnerLoop, h]

theorem sepInnerLoop_expected (IsExpected IsEnd : TokenKind → Bool)
    (separatorKind : TokenKind) (code : DiagCode) (parseItem : ItemParser) (fuel : Nat)
    (buf : List TokenOrSyntax) (sk : Trivia) (s : ParserState)
    (h1 : IsEnd (peek s).kind = false) (h2 : IsExpected (peek s).kind = true) :
    sepInnerLoop IsExpected IsEnd separatorKind code parseItem (fuel + 1) buf sk s =
      sepInnerLoop IsExpected IsEnd separatorKind code parseItem fuel
        (buf ++ [.tok (prependTriviaTok (expect separatorKind s).1 sk).1,
          (prependTriviaTOS
            (.node (parseItem false (expect separatorKind s).2).1)
            (prependTriviaTok (expect separatorKind s).1 sk).2).1])
        (prependTriviaTOS
          (.node (parseItem false (expect separatorKind s).2).1)
          (prependTriviaTok (expect separatorKind s).1 sk).2).2
        (parseItem false (expect separatorKind s).2).2 := by
  simp [sepInnerLoop, h1, h2]

theorem sepInnerLoop_skip_abort (IsExpected IsEnd : TokenKind → Bool)
    (separatorKind : TokenKind) (code : DiagCode) (parseItem : ItemParser) (fuel : Nat)
    (buf : List TokenOrSyntax) (sk : Trivia) (s : ParserState)
    (h1 : IsEnd (peek s).kind = false) (h2 : IsExpected (peek s).kind = false)
    (h3 : (skipBadTokens IsExpected IsEnd code s).1 = SkipAction.Abort) :
    sepInnerLoop IsExpected IsEnd separatorKind code parseItem (fuel + 1) buf sk s =
      (buf, (skipBadTokens IsExpected IsEnd code s).2.1,
        (skipBadTokens IsExpected IsEnd code s).2.2) := by
  simp [sepInnerLoop, h1, h2, h3]

theorem sepInnerLoop_skip_continue (IsExpected IsEnd : TokenKind → Bool)
    (separatorKind : TokenKind) (code : DiagCode) (parseItem : ItemParser) (fuel : Nat)
    (buf : List TokenOrSyntax) (sk : Trivia) (s : ParserState)
    (h1 : IsEnd (peek s).kind = false) (h2 : IsExpected (peek s).kind = false)
    (h3 : (skipBadTokens IsExpected IsEnd code s).1 = SkipAction.Continue) :
    sepInnerLoop IsExpected IsEnd separatorKind code parseItem (fuel + 1) buf sk s =
      sepInnerLoop IsExpected IsEnd separatorKind code parseItem fuel buf
        (skipBadTokens IsExpected IsEnd code s).2.1
        (skipBadTokens IsExpected IsEnd code s).2.2 := by
  simp [sepInnerLoop, h1, h2, h3]

theorem sepOuterLoop_expected (IsExpected IsEnd : TokenKind → Bool)
    (separatorKind : TokenKind) (code : DiagCode) (parseItem : ItemParser) (fuel : Nat)
    (buf : List TokenOrSyntax) (sk : Trivia) (s : ParserState)
    (h : IsExpected (peek s).kind = true) :
    sepOuterLoop IsExpected IsEnd separatorKind code parseItem (fuel + 1) buf sk s =
      sepInnerLoop IsExpected IsEnd separatorKind code parseItem fuel
        (buf ++ [(prependTriviaTOS (.node (parseItem true s).1) sk).1])
        (prependTriviaTOS (.node (parseItem true s).1) sk).2
        (parseItem true s).2 := by
  simp [sepOuterLoop, h]

theorem sepOuterLoop_skip_abort (IsExpected IsEnd : TokenKind → Bool)
    (separatorKind : TokenKind) (code : DiagCode) (parseItem : ItemParser) (fuel : Nat)
    (buf : List TokenOrSyntax) (sk : Trivia) (s : ParserState)
    (h : IsExpected (peek s).kind = false)
    (h3 : (skipBadTokens IsExpected IsEnd code s).1 = SkipAction.Abort) :
    sepOuterLoop IsExpected IsEnd separatorKind code parseItem (fuel + 1) buf sk s =
      (buf, (skipBadTokens IsExpected IsEnd code s).2.1,
        (skipBadTokens IsExpected IsEnd code s).2.2) := by
  simp [sepOuterLoop, h, h3]

theorem sepOuterLoop_skip_continue (IsExpected IsEnd : TokenKind → Bool)
    (separatorKind : TokenKind) (code : DiagCode) (parseItem : ItemParser) (fuel : Nat)
    (buf : List TokenOrSyntax) (sk : Trivia) (s : ParserState)
    (h : IsExpected (peek s).kind = false)
    (h3 : (skipBadTokens IsExpected IsEnd code s).1 = SkipAction.Continue) :
    sepOuterLoop IsExpected IsEnd separatorKind code parseItem (fuel + 1) buf sk s =
      sepOuterLoop IsExpected IsEnd separatorKind code parseItem fuel buf
        (skipBadTokens IsExpected IsEnd code s).2.1
        (skipBadTokens IsExpected IsEnd code s).2.2 := by
  simp [sepOuterLoop, h, h3]

/-! Conservation of raw source text through the list-parse loops.  The
induction carries the single-slot invariant: the pending trivium is empty,
or the current token can start an item; this is what guarantees that
`skipBadTokens` (which overwrites the slot) is never run while a skipped
run is still pending. -/

theorem sepInnerLoop_conserve (IsExpected IsEnd : TokenKind → Bool)
    (separatorKind : TokenKind) (code : DiagCode) (parseItem : ItemParser)
    (hItem : ∀ b s, tokenListText (parseItem b s).1 ++ stateText (parseItem b s).2 =
      stateText s) :
    ∀ (fuel : Nat) (buf : List TokenOrSyntax) (sk : Trivia) (s : ParserState),
      (sk.kind = TriviaKind.Unknown ∨ IsExpected (peek s).kind = true) →
      tosListText (sepInnerLoop IsExpected IsEnd separatorKind code parseItem
          fuel buf sk s).1 ++
        ((sepInnerLoop IsExpected IsEnd separatorKind code parseItem
          fuel buf sk s).2.1.rawText ++
         stateText (sepInnerLoop IsExpected IsEnd separatorKind code parseItem
          fuel buf sk s).2.2) =
      tosListText buf ++ (sk.rawText ++ stateText s) := by
  intro fuel
  induction fuel with
  | zero => intro buf sk s _; rfl
  | succ fuel ih =>
    intro buf sk s inv
    by_cases hEnd : IsEnd (peek s).kind = true
    · rw [sepInnerLoop_end IsExpected IsEnd separatorKind code parseItem fuel buf sk s hEnd]
    · have hEnd2 : IsEnd (peek s).kind = false := by simpa using hEnd
      by_cases hExp : IsExpected (peek s).kind = true
      · rw [sepInnerLoop_expected IsExpected IsEnd separatorKind code parseItem fuel
          buf sk s hEnd2 hExp]
        have hslot : (prependTriviaTok (expect separatorKind s).1 sk).2.kind =
            TriviaKind.Unknown := prependTriviaTok_slot _ _
        have hslot2 : (prependTriviaTOS
            (.node (parseItem false (expect separatorKind s).2).1)
            (prependTriviaTok (expect separatorKind s).1 sk).2).2.kind =
            TriviaKind.Unknown := by
          rw [prependTriviaTOS_of_unknown _ _ hslot]
          exact hslot
        rw [ih _ _ _ (Or.inl hslot2)]
        rw [tosListText_append, tosListText_pair, TokenOrSyntax.rawText_tok]
        rw [String.append_assoc (tosListText buf)]
        apply congrArg (tosListText buf ++ ·)
        rw [String.append_assoc]
        calc (prependTriviaTok (expect separatorKind s).1 sk).1.rawText ++
              ((prependTriviaTOS (.node (parseItem false (expect separatorKind s).2).1)
                  (prependTriviaTok (expect separatorKind s).1 sk).2).1.rawText ++
                ((prependTriviaTOS (.node (parseItem false (expect separatorKind s).2).1)
                  (prependTriviaTok (expect separatorKind s).1 sk).2).2.rawText ++
                 stateText (parseItem false (expect separatorKind s).2).2))
            = (prependTriviaTok (expect separatorKind s).1 sk).1.rawText ++
              (((prependTriviaTOS (.node (parseItem false (expect separatorKind s).2).1)
                  (prependTriviaTok (expect separatorKind s).1 sk).2).1.rawText ++
                (prependTriviaTOS (.node (parseItem false (expect separatorKind s).2).1)
                  (prependTriviaTok (expect separatorKind s).1 sk).2).2.rawText) ++
               stateText (parseItem false (expect separatorKind s).2).2) := by
              rw [String.append_assoc]
          _ = (prependTriviaTok (expect separatorKind s).1 sk).1.rawText ++
              (((prependTriviaTok (expect separatorKind s).1 sk).2.rawText ++
                tokenListText (parseItem false (expect separatorKind s).2).1) ++
               stateText (parseItem false (expect separatorKind s).2).2) := by
              rw [prependTriviaTOS_conserve, TokenOrSyntax.rawText_node]
          _ = (prependTriviaTok (expect separatorKind s).1 sk).1.rawText ++
              ((prependTriviaTok (expect separatorKind s).1 sk).2.rawText ++
               (tokenListText (parseItem false (expect separatorKind s).2).1 ++
                stateText (parseItem false (expect separatorKind s).2).2)) := by
              rw [String.append_assoc]
          _ = (prependTriviaTok (expect separatorKind s).1 sk).1.rawText ++
              ((prependTriviaTok (expect separatorKind s).1 sk).2.rawText ++
               stateText (expect separatorKind s).2) := by
              rw [hItem]
          _ = ((prependTriviaTok (expect separatorKind s).1 sk).1.rawText ++
               (prependTriviaTok (expect separatorKind s).1 sk).2.rawText) ++
              stateText (expect separatorKind s).2 := by
              rw [String.append_assoc]
          _ = (sk.rawText ++ (expect separatorKind s).1.rawText) ++
              stateText (expect separatorKind s).2 := by
              rw [prependTriviaTok_conserve]
          _ = sk.rawText ++ ((expect separatorKind s).1.rawText ++
              stateText (expect separatorKind s).2) := by
              rw [String.append_assoc]
          _ = sk.rawText ++ stateText s := by
              rw [expect_conserve]
      · have hExp2 : IsExpected (peek s).kind = false := by simpa using hExp
        have hskUnknown : sk.kind = TriviaKind.Unknown := by
          rcases inv with h | h
          · exact h
          · rw [h] at hExp2; cases hExp2
        have hskRaw : sk.rawText = "" := Trivia.rawText_of_unknown sk hskUnknown
        cases hAb : (skipBadTokens IsExpected IsEnd code s).1 with
        | Abort =>
          rw [sepInnerLoop_skip_abort IsExpected IsEnd separatorKind code parseItem fuel
            buf sk s hEnd2 hExp2 hAb]
          rw [hskRaw, String.empty_append]
          apply congrArg (tosListText buf ++ ·)
          have := skipBadTokens_conserve IsExpected IsEnd code s
          rw [← this]
        | Continue =>
          rw [sepInnerLoop_skip_continue IsExpected IsEnd separatorKind code parseItem fuel
            buf sk s hEnd2 hExp2 hAb]
          rw [ih _ _ _ (Or.inr (skipBadTokens_continue IsExpected IsEnd code s hAb))]
          rw [hskRaw, String.empty_append]
          apply congrArg (tosListText buf ++ ·)
          have := skipBadTokens_conserve IsExpected IsEnd code s
          rw [← this]

theorem sepOuterLoop_conserve (IsExpected IsEnd : TokenKind → Bool)
    (separatorKind : TokenKind) (code : DiagCode) (parseItem : ItemParser)
    (hItem : ∀ b s, tokenListText (parseItem b s).1 ++ stateText (parseItem b s).2 =
      stateText s)
    (hNE : ∀ b s, (parseItem b s).1 ≠ []) :
    ∀ (fuel : Nat) (buf : List TokenOrSyntax) (sk : Trivia) (s : ParserState),
      (sk.kind = TriviaKind.Unknown ∨ IsExpected (peek s).kind = true) →
      tosListText (sepOuterLoop IsExpected IsEnd separatorKind code parseItem
          fuel buf sk s).1 ++
        ((sepOuterLoop IsExpected IsEnd separatorKind code parseItem
          fuel buf sk s).2.1.rawText ++
         stateText (sepOuterLoop IsExpected IsEnd separatorKind code parseItem
          fuel buf sk s).2.2) =
      tosListText buf ++ (sk.rawText ++ stateText s) := by
  intro fuel
  induction fuel with
  | zero => intro buf sk s _; rfl
  | succ fuel ih =>
    intro buf sk s inv
    by_cases hExp : IsExpected (peek s).kind = true
    · rw [sepOuterLoop_expected IsExpected IsEnd separatorKind code parseItem fuel
        buf sk s hExp]
      have hslot : (prependTriviaTOS (.node (parseItem true s).1) sk).2.kind =
          TriviaKind.Unknown :=
        prependTriviaTOS_slot_of_ne (parseItem true s).1 sk (hNE true s)
      rw [sepInnerLoop_conserve IsExpected IsEnd separatorKind code parseItem hItem
        _ _ _ _ (Or.inl hslot)]
      rw [tosListText_append, tosListText_single]
      rw [String.append_assoc (tosListText buf)]
      apply congrArg (tosListText buf ++ ·)
      calc (prependTriviaTOS (.node (parseItem true s).1) sk).1.rawText ++
            ((prependTriviaTOS (.node (parseItem true s).1) sk).2.rawText ++
             stateText (parseItem true s).2)
          = ((prependTriviaTOS (.node (parseItem true s).1) sk).1.rawText ++
             (prependTriviaTOS (.node (parseItem true s).1) sk).2.rawText) ++
            stateText (parseItem true s).2 := by
            rw [String.append_assoc]
        _ = (sk.rawText ++ tokenListText (parseItem true s).1) ++
            stateText (parseItem true s).2 := by
            rw [prependTriviaTOS_conserve, TokenOrSyntax.rawText_node]
        _ = sk.rawText ++ (tokenListText (parseItem true s).1 ++
            stateText (parseItem true s).2) := by
            rw [String.append_assoc]
        _ = sk.rawText ++ stateText s := by
            rw [hItem]
    · have hExp2 : IsExpected (peek s).kind = false := by simpa using hExp
      have hskUnknown : sk.kind = TriviaKind.Unknown := by
        rcases inv with h | h
        · exact h
        · rw [h] at hExp2; cases hExp2
      have hskRaw : sk.rawText = "" := Trivia.rawText_of_unknown sk hskUnknown
      cases hAb : (skipBadTokens IsExpected IsEnd code s).1 with
      | Abort =>
        rw [sepOuterLoop_skip_abort IsExpected IsEnd separatorKind code parseItem fuel
          buf sk s hExp2 hAb]
        rw [hskRaw, String.empty_append]
        apply congrArg (tosListText buf ++ ·)
        have := skipBadTokens_conserve IsExpected IsEnd code s
        rw [← this]
      | Continue =>
        rw [sepOuterLoop_skip_continue IsExpected IsEnd separatorKind code parseItem fuel
          buf sk s hExp2 hAb]
        rw [ih _ _ _ (Or.inr (skipBadTokens_continue IsExpected IsEnd code s hAb))]
        rw [hskRaw, String.empty_append]
        apply congrArg (tosListText buf ++ ·)
        have := skipBadTokens_conserve IsExpected IsEnd code s
        rw [← this]

/-! Conservation through the two overloads of `parseSeparatedList`. -/

theorem expect_of_match (k : TokenKind) (s : ParserState) (h : (peek s).kind = k) :
    expect k s = consume s := by
  simp [expect, h]

theorem parseSeparatedListBuf_of_end (IsExpected IsEnd : TokenKind → Bool)
    (closeKind separatorKind : TokenKind) (code : DiagCode) (parseItem : ItemParser)
    (fuel : Nat) (s : ParserState) (h : IsEnd (peek s).kind = true) :
    parseSeparatedListBuf IsExpected IsEnd closeKind separatorKind code parseItem fuel s =
      ([], (prependTriviaTok (expect closeKind s).1 Trivia.empty).1,
        (expect closeKind s).2) := by
  simp [parseSeparatedListBuf, h]

theorem parseSeparatedListBuf_of_not_end (IsExpected IsEnd : TokenKind → Bool)
    (closeKind separatorKind : TokenKind) (code : DiagCode) (parseItem : ItemParser)
    (fuel : Nat) (s : ParserState) (h : IsEnd (peek s).kind = false) :
    parseSeparatedListBuf IsExpected IsEnd closeKind separatorKind code parseItem fuel s =
      ((sepOuterLoop IsExpected IsEnd separatorKind code parseItem fuel []
          Trivia.empty s).1,
        (prependTriviaTok
          (expect closeKind (sepOuterLoop IsExpected IsEnd separatorKind code parseItem
            fuel [] Trivia.empty s).2.2).1
          (sepOuterLoop IsExpected IsEnd separatorKind code parseItem fuel []
            Trivia.empty s).2.1).1,
        (expect closeKind (sepOuterLoop IsExpected IsEnd separatorKind code parseItem
          fuel [] Trivia.empty s).2.2).2) := by
  simp [parseSeparatedListBuf, h]

theorem parseSeparatedListBuf_conserve (IsExpected IsEnd : TokenKind → Bool)
    (closeKind separatorKind : TokenKind) (code : DiagCode) (parseItem : ItemParser)
    (hItem : ∀ b s, tokenListText (parseItem b s).1 ++ stateText (parseItem b s).2 =
      stateText s)
    (hNE : ∀ b s, (parseItem b s).1 ≠ []) (fuel : Nat) (s : ParserState) :
    tosListText (parseSeparatedListBuf IsExpected IsEnd closeKind separatorKind code
        parseItem fuel s).1 ++
      ((parseSeparatedListBuf IsExpected IsEnd closeKind separatorKind code
        parseItem fuel s).2.1.rawText ++
       stateText (parseSeparatedListBuf IsExpected IsEnd closeKind separatorKind code
        parseItem fuel s).2.2) = stateText s := by
  by_cases hEnd : IsEnd (peek s).kind = true
  · rw [parseSeparatedListBuf_of_end IsExpected IsEnd closeKind separatorKind code
      parseItem fuel s hEnd]
    rw [prependTriviaTok_of_unknown (expect closeKind s).1 Trivia.empty rfl,
      tosListText_nil, String.empty_append, expect_conserve]
  · have hEnd2 : IsEnd (peek s).kind = false := by simpa using hEnd
    rw [parseSeparatedListBuf_of_not_end IsExpected IsEnd closeKind separatorKind code
      parseItem fuel s hEnd2]
    rw [prependTriviaTok_fst_rawText, String.append_assoc, expect_conserve]
    have hout := sepOuterLoop_conserve IsExpected IsEnd separatorKind code parseItem
      hItem hNE fuel [] Trivia.empty s (Or.inl rfl)
    rw [hout, tosListText_nil, Trivia.rawText_empty, String.empty_append,
      String.empty_append]

/-- The one-token item parser preserves raw source text. -/
theorem oneTokenItem_conserve (b : Bool) (s : ParserState) :
    tokenListText (oneTokenItem b s).1 ++ stateText (oneTokenItem b s).2 = stateText s := by
  show tokenListText [(consume s).1] ++ stateText (consume s).2 = stateText s
  rw [tokenListText_cons, tokenListText_nil, String.append_empty, consume_conserve]

/-- The one-token item parser returns a nonempty node. -/
theorem oneTokenItem_ne (b : Bool) (s : ParserState) : (oneTokenItem b s).1 ≠ [] := by
  simp [oneTokenItem]

/-! Claim theorems. -/

/-- C1: Round-trip. For every input token stream — including streams with
lexical or syntactic errors — and every item parser that itself preserves
raw text and returns at least one token per item, the output of the
bookended `parseSeparatedList` (open token, buffer of items and
separators, close token) concatenated as trivia-then-text over a
post-order walk, followed by the text of the unconsumed remainder,
reproduces the original source byte sequence exactly.  Tokens discarded
during recovery survive inside `SkippedTokens` trivia on the output
tokens, so nothing is dropped. -/
theorem c1_parser_round_trip (IsExpected IsEnd : TokenKind → Bool)
    (openKind closeKind separatorKind : TokenKind) (code : DiagCode)
    (parseItem : ItemParser)
    (hItem : ∀ b s, tokenListText (parseItem b s).1 ++ stateText (parseItem b s).2 =
      stateText s)
    (hNE : ∀ b s, (parseItem b s).1 ≠ []) (fuel : Nat) (s : ParserState) :
    (parseSeparatedListFull IsExpected IsEnd openKind closeKind separatorKind code
        parseItem fuel s).1.rawText ++
      (tosListText (parseSeparatedListFull IsExpected IsEnd openKind closeKind
        separatorKind code parseItem fuel s).2.1 ++
       ((parseSeparatedListFull IsExpected IsEnd openKind closeKind separatorKind code
        parseItem fuel s).2.2.1.rawText ++
        stateText (parseSeparatedListFull IsExpected IsEnd openKind closeKind
          separatorKind code parseItem fuel s).2.2.2)) = stateText s := by
  show (expect openKind s).1.rawText ++
    (tosListText (parseSeparatedListBuf IsExpected IsEnd closeKind separatorKind code
      parseItem fuel (expect openKind s).2).1 ++
     ((parseSeparatedListBuf IsExpected IsEnd closeKind separatorKind code parseItem
      fuel (expect openKind s).2).2.1.rawText ++
      stateText (parseSeparatedListBuf IsExpected IsEnd closeKind separatorKind code
        parseItem fuel (expect openKind s).2).2.2)) = stateText s
  rw [parseSeparatedListBuf_conserve IsExpected IsEnd closeKind separatorKind code
    parseItem hItem hNE fuel (expect openKind s).2, expect_conserve]

/-- Witness for C1: the round trip evaluated on the concrete error input
`( a , % , b )`, whose `%` run is skipped during recovery. -/
theorem c1_parser_round_trip_witness :
    (parseSeparatedListFull fixIsExpected fixIsEnd .LParen .RParen .Comma
        (.numbered 3) oneTokenItem 9 badState).1.rawText ++
      (tosListText (parseSeparatedListFull fixIsExpected fixIsEnd .LParen .RParen .Comma
        (.numbered 3) oneTokenItem 9 badState).2.1 ++
       ((parseSeparatedListFull fixIsExpected fixIsEnd .LParen .RParen .Comma
        (.numbered 3) oneTokenItem 9 badState).2.2.1.rawText ++
        stateText (parseSeparatedListFull fixIsExpected fixIsEnd .LParen .RParen .Comma
          (.numbered 3) oneTokenItem 9 badState).2.2.2)) = stateText badState ∧
    stateText badState = " ( a , % , b ) " := by
  refine ⟨c1_parser_round_trip fixIsExpected fixIsEnd .LParen .RParen .Comma
    (.numbered 3) oneTokenItem oneTokenItem_conserve oneTokenItem_ne 9 badState, ?_⟩
  rfl

/-- C2: Contract of `skipBadTokens` when the current token is not
expected: exactly one diagnostic of the given code is emitted, at the
location of the first unexpected token; tokens are consumed until
`IsExpected` matches (result `Continue`) or a token satisfying `IsAbort`
or `EndOfFile` is reached (result `Abort`); and the skipped-tokens slot
receives a `SkippedTokens` trivium holding exactly the consumed tokens,
or the empty trivium when nothing was consumed. -/
theorem c2_skip_bad_tokens_contract (IsExpected IsAbort : TokenKind → Bool)
    (code : DiagCode) (s : ParserState)
    (h : IsExpected (peek s).kind = false) :
    ∃ consumed,
      s.tokens = consumed ++ (skipBadTokens IsExpected IsAbort code s).2.2.tokens ∧
      (skipBadTokens IsExpected IsAbort code s).2.2.diags =
        s.diags ++ [⟨code, (peek s).location⟩] ∧
      (∀ t ∈ consumed, IsExpected t.kind = false ∧ t.kind ≠ TokenKind.EndOfFile ∧
        IsAbort t.kind = false) ∧
      (skipBadTokens IsExpected IsAbort code s).2.1 =
        (if consumed.isEmpty then Trivia.empty else Trivia.skippedTokens consumed) ∧
      ((skipBadTokens IsExpected IsAbort code s).1 = SkipAction.Continue →
        IsExpected (peek (skipBadTokens IsExpected IsAbort code s).2.2).kind = true) ∧
      ((skipBadTokens IsExpected IsAbort code s).1 = SkipAction.Abort →
        (peek (skipBadTokens IsExpected IsAbort code s).2.2).kind = TokenKind.EndOfFile ∨
          IsAbort (peek (skipBadTokens IsExpected IsAbort code s).2.2).kind = true) := by
  obtain ⟨mid, hsplit, hsk, hmem⟩ := skipBadTokens_split IsExpected IsAbort code s
  exact ⟨mid, hsplit,
    skipBadTokens_diags_of_unexpected IsExpected IsAbort code s h, hmem, hsk,
    fun hc => skipBadTokens_continue IsExpected IsAbort code s hc,
    fun ha => (skipBadTokens_abort IsExpected IsAbort code s ha).2⟩

/-- Witness for C2: `skipBadTokens` run on the concrete state whose
current tokens are the bad run `% %` ending at an identifier. -/
theorem c2_skip_bad_tokens_contract_witness :
    ∃ consumed,
      skipFixState.tokens =
        consumed ++ (skipBadTokens fixIsExpected fixIsEnd (.numbered 3)
          skipFixState).2.2.tokens ∧
      (skipBadTokens fixIsExpected fixIsEnd (.numbered 3) skipFixState).2.2.diags =
        skipFixState.diags ++ [⟨.numbered 3, (peek skipFixState).location⟩] ∧
      (∀ t ∈ consumed, fixIsExpected t.kind = false ∧ t.kind ≠ TokenKind.EndOfFile ∧
        fixIsEnd t.kind = false) ∧
      (skipBadTokens fixIsExpected fixIsEnd (.numbered 3) skipFixState).2.1 =
        (if consumed.isEmpty then Trivia.empty else Trivia.skippedTokens consumed) ∧
      ((skipBadTokens fixIsExpected fixIsEnd (.numbered 3) skipFixState).1 =
          SkipAction.Continue →
        fixIsExpected (peek (skipBadTokens fixIsExpected fixIsEnd (.numbered 3)
          skipFixState).2.2).kind = true) ∧
      ((skipBadTokens fixIsExpected fixIsEnd (.numbered 3) skipFixState).1 =
          SkipAction.Abort →
        (peek (skipBadTokens fixIsExpected fixIsEnd (.numbered 3)
            skipFixState).2.2).kind = TokenKind.EndOfFile ∨
          fixIsEnd (peek (skipBadTokens fixIsExpected fixIsEnd (.numbered 3)
            skipFixState).2.2).kind = true) :=
  c2_skip_bad_tokens_contract fixIsExpected fixIsEnd (.numbered 3) skipFixState
    (by decide)

/-- C9: `skipBadTokens` never consumes the token that ends the skip — the
remaining tokens are a suffix of the input whose consumed prefix contains
no token satisfying `IsExpected` or `IsAbort` and no `EndOfFile` token,
so the resulting current token is the FIRST terminating token of the
input: on `Continue` the first token satisfying `IsExpected`, on `Abort`
the first abort or `EndOfFile` token reached; the caller resumes exactly
there. -/
theorem c9_skip_stops_at_terminator (IsExpected IsAbort : TokenKind → Bool)
    (code : DiagCode) (s : ParserState) :
    (∃ consumed,
      s.tokens = consumed ++ (skipBadTokens IsExpected IsAbort code s).2.2.tokens ∧
      (∀ t ∈ consumed, IsExpected t.kind = false ∧ t.kind ≠ TokenKind.EndOfFile ∧
        IsAbort t.kind = false)) ∧
    ((skipBadTokens IsExpected IsAbort code s).1 = SkipAction.Continue →
      IsExpected (peek (skipBadTokens IsExpected IsAbort code s).2.2).kind = true) ∧
    ((skipBadTokens IsExpected IsAbort code s).1 = SkipAction.Abort →
      IsExpected (peek (skipBadTokens IsExpected IsAbort code s).2.2).kind = false ∧
        ((peek (skipBadTokens IsExpected IsAbort code s).2.2).kind =
            TokenKind.EndOfFile ∨
          IsAbort (peek (skipBadTokens IsExpected IsAbort code s).2.2).kind = true)) := by
  obtain ⟨mid, hsplit, _, hmem⟩ := skipBadTokens_split IsExpected IsAbort code s
  exact ⟨⟨mid, hsplit, hmem⟩,
    fun hc => skipBadTokens_continue IsExpected IsAbort code s hc,
    fun ha => skipBadTokens_abort IsExpected IsAbort code s ha⟩

/-- Witness for C9: on the `% % x` fixture the skip ends with `Continue`
and the identifier `x` is still the current token. -/
theorem c9_skip_stops_at_terminator_witness :
    fixIsExpected (peek (skipBadTokens fixIsExpected fixIsEnd (.numbered 3)
      skipFixState).2.2).kind = true :=
  (c9_skip_stops_at_terminator fixIsExpected fixIsEnd (.numbered 3) skipFixState).2.1
    (by decide)

/-- C10: when the current token already satisfies `IsExpected` — the test
performed before the abort check, so kinds satisfying both predicates
included — `skipBadTokens` returns `Continue`, emits no diagnostic,
consumes nothing, and assigns the empty trivium. -/
theorem c10_skip_noop_when_expected (IsExpected IsAbort : TokenKind → Bool)
    (code : DiagCode) (s : ParserState)
    (h : IsExpected (peek s).kind = true) :
    skipBadTokens IsExpected IsAbort code s = (SkipAction.Continue, Trivia.empty, s) :=
  skipBadTokens_of_expected IsExpected IsAbort code s h

/-- Witness for C10: the semicolon fixture satisfies both the expected and
the abort predicate; the expected test wins and the call is a no-op. -/
theorem c10_skip_noop_when_expected_witness :
    fixIsSemi (peek semiState).kind = true ∧ fixIsSemi (peek semiState).kind = true ∧
      skipBadTokens fixIsSemi fixIsSemi (.numbered 3) semiState =
        (SkipAction.Continue, Trivia.empty, semiState) :=
  ⟨by decide, by decide,
    c10_skip_noop_when_expected fixIsSemi fixIsSemi (.numbered 3) semiState (by decide)⟩

/-- C5: Contract of `expect`: when the current token's kind matches, it
is consumed and returned; otherwise an "expected X" diagnostic is emitted
at the current location and the missing token built by
`createExpectedToken` is returned — a synthetic token of the expected
kind with empty text, flagged as missing, carrying the leading trivia of
the actual token. -/
theorem c5_expect_contract (k : TokenKind) (s : ParserState) :
    ((peek s).kind = k → expect k s = consume s) ∧
    ((peek s).kind ≠ k →
      (expect k s).1 = createExpectedToken (peek s) k ∧
      (expect k s).1.kind = k ∧
      (expect k s).1.text = "" ∧
      (expect k s).1.missing = true ∧
      (expect k s).1.trivia = (peek s).trivia ∧
      (expect k s).2.diags = s.diags ++ [⟨DiagCode.expected k, (peek s).location⟩]) := by
  constructor
  · intro h
    exact expect_of_match k s h
  · intro h
    have h1 : (expect k s).1 = createExpectedToken (peek s) k := by
      simp [expect, h]
    refine ⟨h1, ?_, ?_, ?_, ?_, ?_⟩
    · rw [h1]; rfl
    · rw [h1]; rfl
    · rw [h1]; rfl
    · rw [h1]; rfl
    · rw [expect_diags k s, if_neg h]

/-- Witness for C5: both branches of the `expect` contract on the
semicolon fixture — a match for `Semi`, a mismatch for `RParen`. -/
theorem c5_expect_contract_witness :
    expect .Semi semiState = consume semiState ∧
    (expect .RParen semiState).2.diags =
      semiState.diags ++ [⟨DiagCode.expected .RParen, (peek semiState).location⟩] :=
  ⟨(c5_expect_contract .Semi semiState).1 (by decide),
    ((c5_expect_contract .RParen semiState).2 (by decide)).2.2.2.2.2⟩

/-- Counterexample for C3 as stated: on input `( ; )` with `IsEnd`
satisfied by both `RParen` and the hard stop `Semi`, the first token
after the open token satisfies `IsEnd`, the loop is skipped, yet one
diagnostic is emitted (the close token `RParen` is missing), so "zero
diagnostics" fails. -/
theorem c3_empty_list_counterexample :
    fixIsEnd (peek (expect .LParen hardStopState).2).kind = true ∧
    ¬ (parseSeparatedListFull fixIsExpected fixIsEnd .LParen .RParen .Comma
        (.numbered 3) oneTokenItem 4 hardStopState).2.2.2.diags = [] := by
  constructor
  · decide
  · decide

/-- C3 (amended): when the open token matches `openKind` and the first
token after it satisfies `IsEnd`, the parse loop is skipped entirely: the
result is the open token consumed via `expect`, an empty element buffer,
and the close token produced by `expect`; when in addition that first
token's kind is `closeKind` (for example input `()` with
`IsEnd == RParen`), zero diagnostics are emitted. -/
theorem c3_empty_list (IsExpected IsEnd : TokenKind → Bool)
    (openKind closeKind separatorKind : TokenKind) (code : DiagCode)
    (parseItem : ItemParser) (fuel : Nat) (s : ParserState)
    (hOpen : (peek s).kind = openKind)
    (hEnd : IsEnd (peek (expect openKind s).2).kind = true) :
    (parseSeparatedListFull IsExpected IsEnd openKind closeKind separatorKind code
      parseItem fuel s).1 = peek s ∧
    (parseSeparatedListFull IsExpected IsEnd openKind closeKind separatorKind code
      parseItem fuel s).2.1 = [] ∧
    (parseSeparatedListFull IsExpected IsEnd openKind closeKind separatorKind code
      parseItem fuel s).2.2.1 = (expect closeKind (expect openKind s).2).1 ∧
    (parseSeparatedListFull IsExpected IsEnd openKind closeKind separatorKind code
      parseItem fuel s).2.2.2 = (expect closeKind (expect openKind s).2).2 ∧
    ((peek (expect openKind s).2).kind = closeKind →
      (parseSeparatedListFull IsExpected IsEnd openKind closeKind separatorKind code
        parseItem fuel s).2.2.2.diags = s.diags) := by
  have hfull : parseSeparatedListFull IsExpected IsEnd openKind closeKind separatorKind
      code parseItem fuel s =
      ((expect openKind s).1,
        (parseSeparatedListBuf IsExpected IsEnd closeKind separatorKind code parseItem
          fuel (expect openKind s).2).1,
        (parseSeparatedListBuf IsExpected IsEnd closeKind separatorKind code parseItem
          fuel (expect openKind s).2).2.1,
        (parseSeparatedListBuf IsExpected IsEnd closeKind separatorKind code parseItem
          fuel (expect openKind s).2).2.2) := rfl
  have hbuf := parseSeparatedListBuf_of_end IsExpected IsEnd closeKind separatorKind
    code parseItem fuel (expect openKind s).2 hEnd
  rw [hfull, hbuf]
  have hclose : (prependTriviaTok (expect closeKind (expect openKind s).2).1
      Trivia.empty).1 = (expect closeKind (expect openKind s).2).1 := by
    rw [prependTriviaTok_of_unknown (expect closeKind (expect openKind s).2).1
      Trivia.empty rfl]
  refine ⟨?_, rfl, hclose, rfl, ?_⟩
  · rw [expect_of_match openKind s hOpen, consume_fst]
  · intro hck
    show (expect closeKind (expect openKind s).2).2.diags = s.diags
    rw [expect_diags, if_pos hck, expect_of_match openKind s hOpen, consume_diags]

/-- Witness for C3 (amended): the empty list `()`. -/
theorem c3_empty_list_witness :
    (parseSeparatedListFull fixIsExpected fixIsEnd .LParen .RParen .Comma
      (.numbered 3) oneTokenItem 4 emptyListState).2.1 = [] ∧
    (parseSeparatedListFull fixIsExpected fixIsEnd .LParen .RParen .Comma
      (.numbered 3) oneTokenItem 4 emptyListState).2.2.2.diags = emptyListState.diags := by
  have h := c3_empty_list fixIsExpected fixIsEnd .LParen .RParen .Comma (.numbered 3)
    oneTokenItem 4 emptyListState (by decide) (by decide)
  exact ⟨h.2.1, h.2.2.2.2 (by decide)⟩

/-- C4: The single-slot skipped-tokens accumulator.  A pending trivium is
prepended to the next produced token (inserted in front of its leading
trivia) and the slot is then cleared to the empty trivium; an empty slot
is a no-op.  Consequently — the first conjunct, proved along the loop
invariant that the slot is empty whenever `skipBadTokens` could overwrite
it — every skipped run survives in the output exactly once: the raw text
of the buffer, the close token (which absorbs any residual trivium) and
the unconsumed remainder reassemble the input exactly, with nothing
duplicated and nothing lost. -/
theorem c4_single_slot_accumulator (IsExpected IsEnd : TokenKind → Bool)
    (closeKind separatorKind : TokenKind) (code : DiagCode) (parseItem : ItemParser)
    (hItem : ∀ b s, tokenListText (parseItem b s).1 ++ stateText (parseItem b s).2 =
      stateText s)
    (hNE : ∀ b s, (parseItem b s).1 ≠ []) (fuel : Nat) (s : ParserState) :
    tosListText (parseSeparatedListBuf IsExpected IsEnd closeKind separatorKind code
        parseItem fuel s).1 ++
      ((parseSeparatedListBuf IsExpected IsEnd closeKind separatorKind code
        parseItem fuel s).2.1.rawText ++
       stateText (parseSeparatedListBuf IsExpected IsEnd closeKind separatorKind code
        parseItem fuel s).2.2) = stateText s ∧
    (∀ (t : Token) (tr : Trivia), tr.kind ≠ TriviaKind.Unknown →
      prependTriviaTok t tr = (t.addTrivia tr, Trivia.empty) ∧
        (prependTriviaTok t tr).1.trivia = tr :: t.trivia) ∧
    (∀ (t : Token) (tr : Trivia), tr.kind = TriviaKind.Unknown →
      prependTriviaTok t tr = (t, tr)) := by
  refine ⟨parseSeparatedListBuf_conserve IsExpected IsEnd closeKind separatorKind code
    parseItem hItem hNE fuel s, ?_, prependTriviaTok_of_unknown⟩
  intro t tr h
  refine ⟨prependTriviaTok_of_ne t tr h, ?_⟩
  rw [prependTriviaTok_of_ne t tr h]
  cases t with
  | mk k tx trs m l => rfl

/-- Witness for C4: the slot discipline evaluated on a concrete input
whose leading run of bad tokens is skipped. -/
theorem c4_single_slot_accumulator_witness :
    tosListText (parseSeparatedListBuf fixIsExpected fixIsEnd .RParen .Comma
        (.numbered 3) oneTokenItem 9 skipFixState).1 ++
      ((parseSeparatedListBuf fixIsExpected fixIsEnd .RParen .Comma
        (.numbered 3) oneTokenItem 9 skipFixState).2.1.rawText ++
       stateText (parseSeparatedListBuf fixIsExpected fixIsEnd .RParen .Comma
        (.numbered 3) oneTokenItem 9 skipFixState).2.2) = stateText skipFixState :=
  (c4_single_slot_accumulator fixIsExpected fixIsEnd .RParen .Comma (.numbered 3)
    oneTokenItem oneTokenItem_conserve oneTokenItem_ne 9 skipFixState).1

/-- Iterating the loop of a generate-block array produces one child per
iteration while the condition holds: the `some` case, characterized by the
least iteration `N` at which the condition fails. -/
theorem generateLoopRun_ok (cond : Int → Bool) (step : Int → Int) (g : String) :
    ∀ (N budget : Nat) (i : Int), N < budget →
      cond (genvarOrbit step i N) = false →
      (∀ k, k < N → cond (genvarOrbit step i k) = true) →
      generateLoopRun cond step g budget i =
        some ((List.range N).map fun k => ⟨g, genvarOrbit step i k⟩) := by
  intro N
  induction N with
  | zero =>
    intro budget i hb hstop _
    cases budget with
    | zero => exact absurd hb (by omega)
    | succ b =>
      have h0 : cond i = false := by
        simpa [genvarOrbit] using hstop
      simp [generateLoopRun, h0]
  | succ N ih =>
    intro budget i hb hstop hrun
    cases budget with
    | zero => exact absurd hb (by omega)
    | succ b =>
      have h0 : cond i = true := by
        simpa [genvarOrbit] using hrun 0 (Nat.succ_pos N)
      have hstop2 : cond (genvarOrbit step (step i) N) = false := by
        rw [genvarOrbit, ← Function.iterate_succ_apply]
        exact hstop
      have hrun2 : ∀ k, k < N → cond (genvarOrbit step (step i) k) = true := by
        intro k hk
        rw [genvarOrbit, ← Function.iterate_succ_apply]
        exact hrun (k + 1) (by omega)
      have hrec := ih b (step i) (by omega) hstop2 hrun2
      simp only [generateLoopRun, h0, if_true, hrec]
      congr 1
      rw [List.range_succ_eq_map, List.map_cons, List.map_map]
      refine congrArg₂ List.cons ?_ ?_
      · simp [genvarOrbit]
      · apply List.map_congr_left
        intro k _
        simp only [Function.comp]
        rw [genvarOrbit, genvarOrbit, Function.iterate_succ_apply]

/-- Iterating the loop of a generate-block array with a condition that
never fails within the budget exhausts it: the `none` (fatal error)
case. -/
theorem generateLoopRun_err (cond : Int → Bool) (step : Int → Int) (g : String) :
    ∀ (budget : Nat) (i : Int),
      (∀ k, k < budget → cond (genvarOrbit step i k) = true) →
      generateLoopRun cond step g budget i = none := by
  intro budget
  induction budget with
  | zero => intro i _; rfl
  | succ b ih =>
    intro i h
    have h0 : cond i = true := by
      simpa [genvarOrbit] using h 0 (Nat.succ_pos b)
    have hrec := ih (step i) (fun k hk => by
      rw [genvarOrbit, ← Function.iterate_succ_apply]
      exact h (k + 1) (by omega))
    simp [generateLoopRun, h0, hrec]

/-- C6: Loop-generate elaboration evaluates initial, condition and step as
constants and creates exactly one generate-block child per iteration while
the condition holds, each child exposing an implicit parameter named after
the genvar and bound to that iteration's constant value; the iteration
count is bounded by the implementation-defined cap, which is at least
2^16, and a loop whose condition still holds at the cap is a fatal
elaboration error (`none`) aborting only this subtree — the modelled
elaborator is total, so elaboration of every loop-generate construct
terminates. -/
theorem c6_loop_generate_elaboration (genvar : String) (initial : Int)
    (cond : Int → Bool) (step : Int → Int) (N : Nat)
    (hN : N < maxGenerateSteps)
    (hstop : cond (genvarOrbit step initial N) = false)
    (hrun : ∀ k, k < N → cond (genvarOrbit step initial k) = true) :
    generateBlockArrayFromSyntax genvar initial cond step =
      some ((List.range N).map fun k => ⟨genvar, genvarOrbit step initial k⟩) ∧
    2 ^ 16 ≤ maxGenerateSteps ∧
    (∀ (g2 : String) (i2 : Int) (c2 : Int → Bool) (s2 : Int → Int),
      (∀ k, k < maxGenerateSteps → c2 (genvarOrbit s2 i2 k) = true) →
      generateBlockArrayFromSyntax g2 i2 c2 s2 = none) :=
  ⟨generateLoopRun_ok cond step genvar N maxGenerateSteps initial hN hstop hrun,
    by norm_num [maxGenerateSteps],
    fun g2 i2 c2 s2 h => generateLoopRun_err c2 s2 g2 maxGenerateSteps i2 h⟩

/-- Witness for C6: `for (genvar i = 0; i < 3; i++)` elaborates to three
children exposing `i ∈ {0, 1, 2}`. -/
theorem c6_loop_generate_elaboration_witness :
    generateBlockArrayFromSyntax "i" 0 c6Cond c6Step =
      some [⟨"i", 0⟩, ⟨"i", 1⟩, ⟨"i", 2⟩] :=
  ((c6_loop_generate_elaboration "i" 0 c6Cond c6Step 3 (by decide) (by decide)
    (by decide)).1).trans (by decide)

/-- C7: If-generate elaboration returns the then-branch block when the
constant guard is true (nonzero), the else-branch block when the guard is
false and an else branch is present, and a null result otherwise; a null
result adds no member to the parent scope. -/
theorem c7_if_generate_elaboration (guardValue : Int)
    (thenBlock : GenerateBlockSymbol) (elseBlock : Option GenerateBlockSymbol)
    (scopeMembers : List GenerateBlockSymbol) :
    (guardValue ≠ 0 →
      ifGenerateFromSyntax guardValue thenBlock elseBlock = some thenBlock) ∧
    (guardValue = 0 →
      ifGenerateFromSyntax guardValue thenBlock elseBlock = elseBlock) ∧
    (guardValue = 0 → elseBlock = none →
      ifGenerateFromSyntax guardValue thenBlock elseBlock = none ∧
      addIfGenerateMember scopeMembers
        (ifGenerateFromSyntax guardValue thenBlock elseBlock) = scopeMembers) := by
  refine ⟨fun h => by simp [ifGenerateFromSyntax, h], fun h => by
    simp [ifGenerateFromSyntax, h], fun h he => ?_⟩
  have hr : ifGenerateFromSyntax guardValue thenBlock elseBlock = none := by
    simp [ifGenerateFromSyntax, h, he]
  exact ⟨hr, by rw [hr]; rfl⟩

/-- Witness for C7: `if (0)` with no else elaborates to a null block and
the parent scope keeps exactly its previous members. -/
theorem c7_if_generate_elaboration_witness :
    ifGenerateFromSyntax 0 ⟨"g", []⟩ none = none ∧
    addIfGenerateMember [⟨"m", [1]⟩] (ifGenerateFromSyntax 0 ⟨"g", []⟩ none) =
      [⟨"m", [1]⟩] :=
  (c7_if_generate_elaboration 0 ⟨"g", []⟩ none [⟨"m", [1]⟩]).2.2 rfl rfl

/-- C8: `SequentialBlockSymbol.fromSyntax` takes the block symbol's name
from the block statement's optional label — the empty name when no label
is present — and stores the statement tree on the embedded
statement-bodied scope. -/
theorem c8_sequential_block_naming (stx : BlockStatementSyntax) (loc : Nat) :
    (SequentialBlockSymbol.fromSyntax stx loc).name = stx.blockLabel.getD "" ∧
    (SequentialBlockSymbol.fromSyntax stx loc).body = stx.items ∧
    (stx.blockLabel = none → (SequentialBlockSymbol.fromSyntax stx loc).name = "") := by
  refine ⟨rfl, rfl, fun h => ?_⟩
  simp [SequentialBlockSymbol.fromSyntax, h]

/-- Witness for C8: a labelled block takes its label as its name, and an
unlabelled block gets the empty name. -/
theorem c8_sequential_block_naming_witness :
    (SequentialBlockSymbol.fromSyntax ⟨some "blk", .leaf 7⟩ 5).name = "blk" ∧
    (SequentialBlockSymbol.fromSyntax ⟨none, .leaf 7⟩ 5).name = "" := by
  constructor
  · exact ((c8_sequential_block_naming ⟨some "blk", .leaf 7⟩ 5).1).trans rfl
  · exact (c8_sequential_block_naming ⟨none, .leaf 7⟩ 5).2.2 rfl

end Slang
